import Mathlib

/-!
Shallow embedding of the `dotnet_sce` bundle extractor.

The Python package parses the manifest that a single-file .NET
self-contained executable appends to its native host stub, and extracts the
embedded files.  The embedding below mirrors, definition by definition:

  * `binary_reader.py`  — `BinaryReader` over an in-memory byte buffer:
    a buffer is a `List Nat` (real byte values are `0 ≤ b < 256`; every read
    normalises with `% 256`), the cursor is an explicit position, and each
    read returns `Except ParseError (value × new position)`.
  * `bundle_file_entry.py` — `FileType`, `BundleFileEntry` and its parser.
  * `bundle_header.py` — `Location`, `BundleHeader` and its parser.
  * `bundle.py` — `find_bundle_offset`, `read_bundle`, `extract_files`.

Python exceptions become explicit error values: `EOFError` is
`ParseError.endOfStream`, the `ValueError`s raised by the parsing code keep
one constructor each, and `UnicodeDecodeError` is `ParseError.decodeError`.
-/

set_option maxRecDepth 16384

/-- FileType from `bundle_file_entry.py`: the IntEnum of entry type tags. -/
inductive FileType where
  | unknown
  | assembly
  | nativeBinary
  | depsJson
  | runtimeConfigJson
  | symbols
  | last
deriving DecidableEq, BEq, Repr

/-- Errors raised by the parsing layer.  `endOfStream` is Python's
`EOFError("Unexpected end of stream")`; the others are the distinct
`ValueError` / `UnicodeDecodeError` raises of the source. -/
inductive ParseError where
  | endOfStream
  | pathTooLong
  | invalidPathLength
  | decodeError
  | invalidHeader (major minor : Nat) (count : Int)
  | invalidEntry (offset size compressed : Int) (t : FileType)
deriving DecidableEq, Repr

@[simp] theorem except_ok_bind {ε α β : Type} (a : α) (f : α → Except ε β) :
    (Except.ok a >>= f) = f a := rfl

@[simp] theorem except_error_bind {ε α β : Type} (e : ε) (f : α → Except ε β) :
    ((Except.error e : Except ε α) >>= f) = Except.error e := rfl

@[simp] theorem except_pure_eq {ε α : Type} (a : α) :
    (pure a : Except ε α) = Except.ok a := rfl

@[simp] theorem except_throw_eq {ε α : Type} (e : ε) :
    (throw e : Except ε α) = Except.error e := rfl

/-- Little-endian value of a byte list (first byte least significant); each
byte is normalised to `% 256`, matching Python's `struct.unpack("<...")` on
genuine byte buffers. -/
def leNat : List Nat → Nat
  | [] => 0
  | b :: rest => b % 256 + 256 * leNat rest

/-- Two's-complement reading of a `w`-bit unsigned value, as `struct`'s
signed formats `<i` / `<q` produce. -/
def toSigned (w : Nat) (n : Nat) : Int :=
  if n < 2 ^ (w - 1) then (n : Int) else (n : Int) - 2 ^ w

/-- BinaryReader.read_bytes: Python's `stream.read(size)` returns the bytes
from the cursor, at most `size` of them; `read_bytes` raises `EOFError` when
fewer than `size` came back. -/
def read_bytes (data : List Nat) (pos n : Nat) : Except ParseError (List Nat × Nat) :=
  let chunk := ((data.drop pos).take n).map (fun b => b % 256)
  if chunk.length = n then .ok (chunk, pos + n) else .error .endOfStream

/-- BinaryReader.read_byte. -/
def read_byte (data : List Nat) (pos : Nat) : Except ParseError (Nat × Nat) :=
  match read_bytes data pos 1 with
  | .ok (b :: _, p) => .ok (b, p)
  | .ok ([], _) => .error .endOfStream
  | .error e => .error e

/-- BinaryReader.read_int32 (`struct.unpack("<i", ...)`). -/
def read_int32 (data : List Nat) (pos : Nat) : Except ParseError (Int × Nat) := do
  let (bs, p) ← read_bytes data pos 4
  pure (toSigned 32 (leNat bs), p)

/-- BinaryReader.read_uint32 (`struct.unpack("<I", ...)`). -/
def read_uint32 (data : List Nat) (pos : Nat) : Except ParseError (Nat × Nat) := do
  let (bs, p) ← read_bytes data pos 4
  pure (leNat bs, p)

/-- BinaryReader.read_int64 (`struct.unpack("<q", ...)`). -/
def read_int64 (data : List Nat) (pos : Nat) : Except ParseError (Int × Nat) := do
  let (bs, p) ← read_bytes data pos 8
  pure (toSigned 64 (leNat bs), p)

/-- BinaryReader.read_uint64 (`struct.unpack("<Q", ...)`). -/
def read_uint64 (data : List Nat) (pos : Nat) : Except ParseError (Nat × Nat) := do
  let (bs, p) ← read_bytes data pos 8
  pure (leNat bs, p)

/-- BinaryReader.read_path_length: the 1–2 byte variable-length path length
of the bundle format.  `length` is a `Nat` because Python's bitwise results
on bytes are non-negative, so the source's `length <= 0` test is `length = 0`
here. -/
def read_path_length (data : List Nat) (pos : Nat) : Except ParseError (Nat × Nat) := do
  let (first, pos1) ← read_byte data pos
  let (length, pos2) ←
    if first &&& 0x80 = 0 then
      (pure (first, pos1) : Except ParseError (Nat × Nat))
    else do
      let (second, pos2) ← read_byte data pos1
      if second &&& 0x80 ≠ 0 then
        throw ParseError.pathTooLong
      else
        pure ((second <<< 7) ||| (first &&& 0x7F), pos2)
  if length = 0 ∨ length > 4095 then
    throw ParseError.invalidPathLength
  else
    pure (length, pos2)

/-- C4: `read_path_length` decodes byte `0x00` to a `FormatError`
(`length <= 0`), byte `0x7F` to length 127, bytes `[0x81, 0x01]` to length
129; a two-byte sequence whose second byte has its high bit set fails with
the beyond-two-bytes `FormatError`; a decoded two-byte length above 4095
fails with the invalid-length `FormatError`. -/
theorem read_path_length_decoding :
    read_path_length [0x00] 0 = .error .invalidPathLength
    ∧ read_path_length [0x7F] 0 = .ok (127, 1)
    ∧ read_path_length [0x81, 0x01] 0 = .ok (129, 2)
    ∧ (∀ b0 b1 : Nat, b0 < 256 → b1 < 256 → b0 &&& 0x80 ≠ 0 → b1 &&& 0x80 ≠ 0 →
        read_path_length [b0, b1] 0 = .error .pathTooLong)
    ∧ (∀ b0 b1 : Nat, b0 < 256 → b1 < 256 → b0 &&& 0x80 ≠ 0 → b1 &&& 0x80 = 0 →
        (b1 <<< 7) ||| (b0 &&& 0x7F) > 4095 →
        read_path_length [b0, b1] 0 = .error .invalidPathLength) := by
  refine ⟨rfl, rfl, rfl, ?_, ?_⟩
  · intro b0 b1 hb0 hb1 h0 h1
    simp [read_path_length, read_byte, read_bytes, Nat.mod_eq_of_lt hb0,
      Nat.mod_eq_of_lt hb1, h0, h1]
  · intro b0 b1 hb0 hb1 h0 h1 hlen
    simp [read_path_length, read_byte, read_bytes, Nat.mod_eq_of_lt hb0,
      Nat.mod_eq_of_lt hb1, h0, h1, hlen]

/-- Witness for C4: concrete instances of the two quantified conjuncts. -/
theorem read_path_length_decoding_witness :
    read_path_length [0x80, 0x80] 0 = .error .pathTooLong
    ∧ read_path_length [0x80, 0x20] 0 = .error .invalidPathLength :=
  ⟨read_path_length_decoding.2.2.2.1 0x80 0x80 (by decide) (by decide) (by decide) (by decide),
   read_path_length_decoding.2.2.2.2 0x80 0x20 (by decide) (by decide) (by decide) (by decide)
     (by decide)⟩

/-- Continuation byte of UTF-8: `0x80–0xBF`. -/
def contByte (b : Nat) : Bool := 0x80 ≤ b && b ≤ 0xBF

/-- Strict UTF-8 validity of a byte list, as Python's `bytes.decode("utf-8")`
accepts it (RFC 3629: no overlong forms, no surrogates, max U+10FFFF).  The
decoded path strings are represented by their UTF-8 bytes, so a successful
decode is modelled as the identity on the raw bytes. -/
def utf8Valid : List Nat → Bool
  | [] => true
  | b :: rest =>
    if b ≤ 0x7F then utf8Valid rest
    else if 0xC2 ≤ b && b ≤ 0xDF then
      match rest with
      | c1 :: rest2 => contByte c1 && utf8Valid rest2
      | [] => false
    else if b = 0xE0 then
      match rest with
      | c1 :: c2 :: rest2 => (0xA0 ≤ c1 && c1 ≤ 0xBF) && contByte c2 && utf8Valid rest2
      | _ => false
    else if (0xE1 ≤ b && b ≤ 0xEC) || b = 0xEE || b = 0xEF then
      match rest with
      | c1 :: c2 :: rest2 => contByte c1 && contByte c2 && utf8Valid rest2
      | _ => false
    else if b = 0xED then
      match rest with
      | c1 :: c2 :: rest2 => (0x80 ≤ c1 && c1 ≤ 0x9F) && contByte c2 && utf8Valid rest2
      | _ => false
    else if b = 0xF0 then
      match rest with
      | c1 :: c2 :: c3 :: rest2 =>
        (0x90 ≤ c1 && c1 ≤ 0xBF) && contByte c2 && contByte c3 && utf8Valid rest2
      | _ => false
    else if 0xF1 ≤ b && b ≤ 0xF3 then
      match rest with
      | c1 :: c2 :: c3 :: rest2 => contByte c1 && contByte c2 && contByte c3 && utf8Valid rest2
      | _ => false
    else if b = 0xF4 then
      match rest with
      | c1 :: c2 :: c3 :: rest2 =>
        (0x80 ≤ c1 && c1 ≤ 0x8F) && contByte c2 && contByte c3 && utf8Valid rest2
      | _ => false
    else false

/-- BinaryReader.read_path_string: length prefix, then `length` bytes decoded
as UTF-8.  The string is kept as its byte list. -/
def read_path_string (data : List Nat) (pos : Nat) : Except ParseError (List Nat × Nat) := do
  let (length, pos1) ← read_path_length data pos
  let (raw, pos2) ← read_bytes data pos1 length
  if utf8Valid raw then pure (raw, pos2) else throw ParseError.decodeError

/-- Decoding of the file-type byte, `FileType(type_byte)` with the
`except ValueError: ftype = FileType.UNKNOWN` fallback of
`BundleFileEntry.from_reader`. -/
def byteToFileType (b : Nat) : FileType :=
  if b = 0 then .unknown
  else if b = 1 then .assembly
  else if b = 2 then .nativeBinary
  else if b = 3 then .depsJson
  else if b = 4 then .runtimeConfigJson
  else if b = 5 then .symbols
  else if b = 6 then .last
  else .unknown

/-- BundleFileEntry from `bundle_file_entry.py`; `relative_path` is the
UTF-8 byte list of the decoded string. -/
structure BundleFileEntry where
  offset : Int
  size : Int
  compressed_size : Int
  type : FileType
  relative_path : List Nat
deriving DecidableEq, Repr

/-- BundleFileEntry.is_valid. -/
def BundleFileEntry.is_valid (e : BundleFileEntry) : Prop :=
  e.offset > 0 ∧ e.size > 0 ∧ e.compressed_size ≥ 0 ∧ e.type ≠ FileType.last

instance (e : BundleFileEntry) : Decidable e.is_valid := by
  unfold BundleFileEntry.is_valid; infer_instance

/-- BundleFileEntry.from_reader: `offset(i64)`, `size(i64)`,
`compressed_size(i64)` read only when `major_version == 6` (else the `-1`
sentinel), `type(u8)` with unknown fallback, `relative_path` path string;
then the validity check, failing with the `ValueError` carrying the parsed
fields. -/
def BundleFileEntry.from_reader (data : List Nat) (pos : Nat) (major_version : Nat) :
    Except ParseError (BundleFileEntry × Nat) := do
  let (offset, p1) ← read_int64 data pos
  let (size, p2) ← read_int64 data p1
  let (compressed, p3) ←
    if major_version = 6 then read_int64 data p2
    else (pure (-1, p2) : Except ParseError (Int × Nat))
  let (typeByte, p4) ← read_byte data p3
  let ftype := byteToFileType typeByte
  let (relative, p5) ← read_path_string data p4
  let entry : BundleFileEntry :=
    { offset := offset, size := size, compressed_size := compressed,
      type := ftype, relative_path := relative }
  if entry.is_valid then
    pure (entry, p5)
  else
    throw (ParseError.invalidEntry offset size compressed ftype)

instance exceptDecEq {ε α : Type} [DecidableEq ε] [DecidableEq α] :
    DecidableEq (Except ε α) := fun x y =>
  match x, y with
  | .ok a, .ok b =>
    if h : a = b then .isTrue (by rw [h])
    else .isFalse (by intro hh; cases hh; exact h rfl)
  | .ok _, .error _ => .isFalse (by intro hh; cases hh)
  | .error _, .ok _ => .isFalse (by intro hh; cases hh)
  | .error a, .error b =>
    if h : a = b then .isTrue (by rw [h])
    else .isFalse (by intro hh; cases hh; exact h rfl)

/-- C1: under any major version other than 6 the entry parser does not read
`compressed_size` (the type byte is read directly after the two `i64`
fields) but fixes it at the sentinel `-1`; hence no entry is ever returned
successfully, and whenever the remaining reads succeed the failure is the
validity-check `FormatError` carrying `compressed_size = -1`. -/
theorem entry_nonsix_never_succeeds (data : List Nat) (pos major : Nat) (hmaj : major ≠ 6) :
    (∀ e p', BundleFileEntry.from_reader data pos major ≠ .ok (e, p'))
    ∧ (∀ off sz t pth p1 p2 p4 p5,
        read_int64 data pos = .ok (off, p1) →
        read_int64 data p1 = .ok (sz, p2) →
        read_byte data p2 = .ok (t, p4) →
        read_path_string data p4 = .ok (pth, p5) →
        BundleFileEntry.from_reader data pos major =
          .error (.invalidEntry off sz (-1) (byteToFileType t))) := by
  constructor
  · intro e p' h
    cases h1 : read_int64 data pos with
    | error e1 => simp [BundleFileEntry.from_reader, h1] at h
    | ok v1 =>
      obtain ⟨off, p1⟩ := v1
      cases h2 : read_int64 data p1 with
      | error e2 => simp [BundleFileEntry.from_reader, h1, h2] at h
      | ok v2 =>
        obtain ⟨sz, p2⟩ := v2
        cases h3 : read_byte data p2 with
        | error e3 => simp [BundleFileEntry.from_reader, h1, h2, h3, hmaj] at h
        | ok v3 =>
          obtain ⟨t, p4⟩ := v3
          cases h4 : read_path_string data p4 with
          | error e4 => simp [BundleFileEntry.from_reader, h1, h2, h3, h4, hmaj] at h
          | ok v4 =>
            obtain ⟨pth, p5⟩ := v4
            simp [BundleFileEntry.from_reader, h1, h2, h3, h4, hmaj,
              BundleFileEntry.is_valid] at h
  · intro off sz t pth p1 p2 p4 p5 h1 h2 h3 h4
    simp [BundleFileEntry.from_reader, h1, h2, h3, h4, hmaj, BundleFileEntry.is_valid]

/-- Concrete byte stream for the C1 witness: `offset = 1`, `size = 1`,
type byte 1, path `"a"`. -/
def entrySampleNonSix : List Nat :=
  [1, 0, 0, 0, 0, 0, 0, 0, 1, 0, 0, 0, 0, 0, 0, 0, 1, 1, 0x61]

/-- Witness for C1 at `major_version = 2`. -/
theorem entry_nonsix_never_succeeds_witness :
    BundleFileEntry.from_reader entrySampleNonSix 0 2 =
      .error (.invalidEntry 1 1 (-1) .assembly) :=
  (entry_nonsix_never_succeeds entrySampleNonSix 0 2 (by decide)).2
    1 1 1 [0x61] 8 16 17 19 (by decide) (by decide) (by decide) (by decide)

/-- C9: the file-type byte decodes totally — values 0–6 map to the seven
tags in order and every value ≥ 7 maps to `unknown` — and an entry whose
`offset`, `size` and `compressed_size` satisfy the validity invariant parses
successfully for every type byte whose tag is not `last`, while tag `last`
is rejected by the `type != Last` invariant. -/
theorem file_type_total_entry_parse :
    (byteToFileType 0 = .unknown ∧ byteToFileType 1 = .assembly
      ∧ byteToFileType 2 = .nativeBinary ∧ byteToFileType 3 = .depsJson
      ∧ byteToFileType 4 = .runtimeConfigJson ∧ byteToFileType 5 = .symbols
      ∧ byteToFileType 6 = .last)
    ∧ (∀ b, 7 ≤ b → byteToFileType b = .unknown)
    ∧ (∀ (data : List Nat) (pos : Nat) (off sz c : Int) (t : Nat) (pth : List Nat)
         (p1 p2 p3 p4 p5 : Nat),
        read_int64 data pos = .ok (off, p1) →
        read_int64 data p1 = .ok (sz, p2) →
        read_int64 data p2 = .ok (c, p3) →
        read_byte data p3 = .ok (t, p4) →
        read_path_string data p4 = .ok (pth, p5) →
        off > 0 → sz > 0 → c ≥ 0 →
        (byteToFileType t ≠ .last →
          BundleFileEntry.from_reader data pos 6 =
            .ok (⟨off, sz, c, byteToFileType t, pth⟩, p5))
        ∧ (byteToFileType t = .last →
          BundleFileEntry.from_reader data pos 6 =
            .error (.invalidEntry off sz c .last))) := by
  refine ⟨by decide, ?_, ?_⟩
  · intro b hb
    unfold byteToFileType
    rw [if_neg (by omega), if_neg (by omega), if_neg (by omega), if_neg (by omega),
      if_neg (by omega), if_neg (by omega), if_neg (by omega)]
  · intro data pos off sz c t pth p1 p2 p3 p4 p5 h1 h2 h3 h4 h5 hoff hsz hc
    constructor
    · intro ht
      simp [BundleFileEntry.from_reader, h1, h2, h3, h4, h5,
        BundleFileEntry.is_valid, hoff, hsz, hc, ht]
    · intro ht
      simp [BundleFileEntry.from_reader, h1, h2, h3, h4, h5,
        BundleFileEntry.is_valid, hoff, hsz, hc, ht]

/-- Location from `bundle_header.py`: two `i64` fields. -/
structure Location where
  offset : Int
  size : Int
deriving DecidableEq, Repr

/-- Location.is_valid. -/
def Location.is_valid (l : Location) : Prop := l.offset ≠ 0

instance (l : Location) : Decidable l.is_valid := by
  unfold Location.is_valid; infer_instance

/-- Location.from_reader: `offset(i64)`, `size(i64)`. -/
def Location.from_reader (data : List Nat) (pos : Nat) : Except ParseError (Location × Nat) := do
  let (off, p1) ← read_int64 data pos
  let (sz, p2) ← read_int64 data p1
  pure (⟨off, sz⟩, p2)

/-- BundleHeader from `bundle_header.py`; `bundle_id` is the UTF-8 byte list
of the decoded string. -/
structure BundleHeader where
  major_version : Nat
  minor_version : Nat
  embedded_files_count : Int
  bundle_id : List Nat
  deps_json_location : Location
  runtime_config_json_location : Location
  flags : Nat
deriving DecidableEq, Repr

/-- BundleHeader.is_valid: Python's
`embedded_files_count > 0 and minor_version == 0 and major_version in (6, 2)`. -/
def BundleHeader.is_valid (h : BundleHeader) : Prop :=
  h.embedded_files_count > 0 ∧ h.minor_version = 0
    ∧ (h.major_version = 6 ∨ h.major_version = 2)

instance (h : BundleHeader) : Decidable h.is_valid := by
  unfold BundleHeader.is_valid; infer_instance

/-- BundleHeader.from_reader: reads `major(u32)`, `minor(u32)`, `count(i32)`,
builds the provisional header, checks `is_valid` (raising the `ValueError`
with the three parsed values), and only then reads `bundle_id`, the two
locations and `flags`. -/
def BundleHeader.from_reader (data : List Nat) (pos : Nat) :
    Except ParseError (BundleHeader × Nat) := do
  let (major, p1) ← read_uint32 data pos
  let (minor, p2) ← read_uint32 data p1
  let (embedded, p3) ← read_int32 data p2
  let header : BundleHeader :=
    { major_version := major, minor_version := minor, embedded_files_count := embedded,
      bundle_id := [], deps_json_location := ⟨0, 0⟩,
      runtime_config_json_location := ⟨0, 0⟩, flags := 0 }
  if ¬ header.is_valid then
    throw (ParseError.invalidHeader major minor embedded)
  else do
    let (bundle_id, p4) ← read_path_string data p3
    let (deps, p5) ← Location.from_reader data p4
    let (runtime_cfg, p6) ← Location.from_reader data p5
    let (flags, p7) ← read_uint64 data p6
    let full : BundleHeader :=
      { header with
        bundle_id := bundle_id, deps_json_location := deps,
        runtime_config_json_location := runtime_cfg, flags := flags }
    pure (full, p7)

theorem read_bytes_ok {data : List Nat} {pos n : Nat} {bs : List Nat} {p : Nat}
    (h : read_bytes data pos n = .ok (bs, p)) :
    p = pos + n ∧ (0 < n → pos + n ≤ data.length)
      ∧ bs = ((data.drop pos).take n).map (fun b => b % 256) := by
  simp only [read_bytes] at h
  split at h
  case isTrue hc =>
    cases h
    refine ⟨rfl, ?_, rfl⟩
    simp only [List.length_map, List.length_take, List.length_drop] at hc
    omega
  case isFalse => cases h

theorem read_bytes_take {data : List Nat} {pos n m : Nat} (h : pos + n ≤ m) :
    read_bytes (data.take m) pos n = read_bytes data pos n := by
  have hchunk : ((data.take m).drop pos).take n = (data.drop pos).take n := by
    rw [List.drop_take, List.take_take, Nat.min_eq_left (by omega)]
  simp only [read_bytes, hchunk]

theorem read_uint32_take {data : List Nat} {pos m : Nat} (h : pos + 4 ≤ m) :
    read_uint32 (data.take m) pos = read_uint32 data pos := by
  unfold read_uint32
  rw [read_bytes_take h]

theorem read_int32_take {data : List Nat} {pos m : Nat} (h : pos + 4 ≤ m) :
    read_int32 (data.take m) pos = read_int32 data pos := by
  unfold read_int32
  rw [read_bytes_take h]

theorem read_uint32_ok_pos {data : List Nat} {pos : Nat} {v : Nat} {p : Nat}
    (h : read_uint32 data pos = .ok (v, p)) : p = pos + 4 ∧ pos + 4 ≤ data.length := by
  unfold read_uint32 at h
  cases hb : read_bytes data pos 4 with
  | error e => rw [hb] at h; cases h
  | ok w =>
    obtain ⟨bs, q⟩ := w
    rw [hb] at h
    simp only [except_ok_bind, except_pure_eq] at h
    cases h
    obtain ⟨hq, hlen, -⟩ := read_bytes_ok hb
    exact ⟨hq, hlen (by omega)⟩

theorem read_int32_ok_pos {data : List Nat} {pos : Nat} {v : Int} {p : Nat}
    (h : read_int32 data pos = .ok (v, p)) : p = pos + 4 ∧ pos + 4 ≤ data.length := by
  unfold read_int32 at h
  cases hb : read_bytes data pos 4 with
  | error e => rw [hb] at h; cases h
  | ok w =>
    obtain ⟨bs, q⟩ := w
    rw [hb] at h
    simp only [except_ok_bind, except_pure_eq] at h
    cases h
    obtain ⟨hq, hlen, -⟩ := read_bytes_ok hb
    exact ⟨hq, hlen (by omega)⟩

theorem read_bytes_error {data : List Nat} {pos n : Nat} {e : ParseError}
    (h : read_bytes data pos n = .error e) : e = .endOfStream := by
  simp only [read_bytes] at h
  split at h
  · cases h
  · cases h; rfl

theorem read_byte_error {data : List Nat} {pos : Nat} {e : ParseError}
    (h : read_byte data pos = .error e) : e = .endOfStream := by
  unfold read_byte at h
  split at h
  · cases h
  · cases h; rfl
  · rename_i e' heq
    cases h
    exact read_bytes_error heq

theorem read_int64_error {data : List Nat} {pos : Nat} {e : ParseError}
    (h : read_int64 data pos = .error e) : e = .endOfStream := by
  unfold read_int64 at h
  cases hb : read_bytes data pos 8 with
  | error e' =>
    rw [hb] at h
    simp only [except_error_bind] at h
    cases h
    exact read_bytes_error hb
  | ok w => rw [hb] at h; simp at h

theorem read_uint64_error {data : List Nat} {pos : Nat} {e : ParseError}
    (h : read_uint64 data pos = .error e) : e = .endOfStream := by
  unfold read_uint64 at h
  cases hb : read_bytes data pos 8 with
  | error e' =>
    rw [hb] at h
    simp only [except_error_bind] at h
    cases h
    exact read_bytes_error hb
  | ok w => rw [hb] at h; simp at h

theorem read_path_length_error {data : List Nat} {pos : Nat} {e : ParseError}
    (h : read_path_length data pos = .error e) :
    e = .endOfStream ∨ e = .pathTooLong ∨ e = .invalidPathLength := by
  unfold read_path_length at h
  cases h1 : read_byte data pos with
  | error e1 =>
    rw [h1] at h
    simp only [except_error_bind] at h
    cases h
    exact Or.inl (read_byte_error h1)
  | ok v1 =>
    obtain ⟨first, pos1⟩ := v1
    rw [h1] at h
    simp only [except_ok_bind] at h
    by_cases hf : first &&& 0x80 = 0
    · rw [if_pos hf] at h
      simp only [except_pure_eq, except_ok_bind] at h
      split at h
      · cases h; exact Or.inr (Or.inr rfl)
      · cases h
    · rw [if_neg hf] at h
      cases h2 : read_byte data pos1 with
      | error e2 =>
        rw [h2] at h
        simp only [except_error_bind] at h
        cases h
        exact Or.inl (read_byte_error h2)
      | ok v2 =>
        obtain ⟨second, pos2⟩ := v2
        rw [h2] at h
        simp only [except_ok_bind] at h
        by_cases hs : second &&& 0x80 ≠ 0
        · rw [if_pos hs] at h
          simp only [except_throw_eq, except_error_bind] at h
          cases h
          exact Or.inr (Or.inl rfl)
        · rw [if_neg hs] at h
          simp only [except_pure_eq, except_ok_bind] at h
          split at h
          · cases h; exact Or.inr (Or.inr rfl)
          · cases h

theorem read_path_string_error {data : List Nat} {pos : Nat} {e : ParseError}
    (h : read_path_string data pos = .error e) :
    e = .endOfStream ∨ e = .pathTooLong ∨ e = .invalidPathLength ∨ e = .decodeError := by
  unfold read_path_string at h
  cases h1 : read_path_length data pos with
  | error e1 =>
    rw [h1] at h
    simp only [except_error_bind] at h
    cases h
    rcases read_path_length_error h1 with h' | h' | h' <;> simp [h']
  | ok v1 =>
    obtain ⟨len, pos1⟩ := v1
    rw [h1] at h
    simp only [except_ok_bind] at h
    cases h2 : read_bytes data pos1 len with
    | error e2 =>
      rw [h2] at h
      simp only [except_error_bind] at h
      cases h
      exact Or.inl (read_bytes_error h2)
    | ok v2 =>
      obtain ⟨raw, pos2⟩ := v2
      rw [h2] at h
      simp only [except_ok_bind] at h
      split at h
      · cases h
      · cases h
        exact Or.inr (Or.inr (Or.inr rfl))

theorem location_from_reader_error {data : List Nat} {pos : Nat} {e : ParseError}
    (h : Location.from_reader data pos = .error e) : e = .endOfStream := by
  unfold Location.from_reader at h
  cases h1 : read_int64 data pos with
  | error e1 =>
    rw [h1] at h
    simp only [except_error_bind] at h
    cases h
    exact read_int64_error h1
  | ok v1 =>
    obtain ⟨a, p1⟩ := v1
    rw [h1] at h
    simp only [except_ok_bind] at h
    cases h2 : read_int64 data p1 with
    | error e2 =>
      rw [h2] at h
      simp only [except_error_bind] at h
      cases h
      exact read_int64_error h2
    | ok v2 =>
      obtain ⟨b, p2⟩ := v2
      rw [h2] at h
      simp at h

/-- C3: the header check passes exactly when `major ∈ {2,6}`, `minor = 0`
and `count > 0`; on any other triple the parse fails with the `FormatError`
carrying the three parsed values, the cursor sits at the twelfth byte, and
the result is unchanged when every byte beyond the first twelve is removed
(so no `bundle_id` path read occurs); on a valid triple the parse never
fails with the header `FormatError`. -/
theorem header_check_iff_and_locality (data : List Nat) (pos : Nat)
    (major minor : Nat) (count : Int) (p1 p2 p3 : Nat)
    (h1 : read_uint32 data pos = .ok (major, p1))
    (h2 : read_uint32 data p1 = .ok (minor, p2))
    (h3 : read_int32 data p2 = .ok (count, p3)) :
    (BundleHeader.is_valid
        ⟨major, minor, count, [], ⟨0, 0⟩, ⟨0, 0⟩, 0⟩
      ↔ ((major = 2 ∨ major = 6) ∧ minor = 0 ∧ 0 < count))
    ∧ (¬ ((major = 2 ∨ major = 6) ∧ minor = 0 ∧ 0 < count) →
        BundleHeader.from_reader data pos = .error (.invalidHeader major minor count)
        ∧ p3 = pos + 12
        ∧ BundleHeader.from_reader (data.take (pos + 12)) pos =
            .error (.invalidHeader major minor count))
    ∧ (((major = 2 ∨ major = 6) ∧ minor = 0 ∧ 0 < count) →
        ∀ mj mn : Nat, ∀ c : Int,
          BundleHeader.from_reader data pos ≠ .error (.invalidHeader mj mn c)) := by
  have hiff : BundleHeader.is_valid ⟨major, minor, count, [], ⟨0, 0⟩, ⟨0, 0⟩, 0⟩
      ↔ ((major = 2 ∨ major = 6) ∧ minor = 0 ∧ 0 < count) := by
    unfold BundleHeader.is_valid
    constructor
    · rintro ⟨hc, hm, hv⟩; exact ⟨hv.symm, hm, hc⟩
    · rintro ⟨hv, hm, hc⟩; exact ⟨hc, hm, hv.symm⟩
  obtain ⟨ep1, hb1⟩ := read_uint32_ok_pos h1
  obtain ⟨ep2, hb2⟩ := read_uint32_ok_pos h2
  obtain ⟨ep3, hb3⟩ := read_int32_ok_pos h3
  subst ep1; subst ep2; subst ep3
  refine ⟨hiff, ?_, ?_⟩
  · intro hinv
    have hnv : ¬ BundleHeader.is_valid ⟨major, minor, count, [], ⟨0, 0⟩, ⟨0, 0⟩, 0⟩ :=
      fun hv => hinv (hiff.mp hv)
    refine ⟨?_, by omega, ?_⟩
    · simp [BundleHeader.from_reader, h1, h2, h3, hnv]
    · have t1 : read_uint32 (data.take (pos + 4 + 4 + 4)) pos = .ok (major, pos + 4) := by
        rw [read_uint32_take (by omega)]; exact h1
      have t2 : read_uint32 (data.take (pos + 4 + 4 + 4)) (pos + 4) = .ok (minor, pos + 4 + 4) := by
        rw [read_uint32_take (by omega)]; exact h2
      have t3 : read_int32 (data.take (pos + 4 + 4 + 4)) (pos + 4 + 4) =
          .ok (count, pos + 4 + 4 + 4) := by
        rw [read_int32_take (by omega)]; exact h3
      have harith : pos + 12 = pos + 4 + 4 + 4 := by omega
      rw [harith]
      simp [BundleHeader.from_reader, t1, t2, t3, hnv]
  · intro hval mj mn c
    have hv : BundleHeader.is_valid ⟨major, minor, count, [], ⟨0, 0⟩, ⟨0, 0⟩, 0⟩ :=
      hiff.mpr hval
    intro h
    rw [BundleHeader.from_reader] at h
    rw [h1] at h
    simp only [except_ok_bind] at h
    rw [h2] at h
    simp only [except_ok_bind] at h
    rw [h3] at h
    simp only [except_ok_bind] at h
    rw [if_neg (by simpa using hv)] at h
    cases h4 : read_path_string data (pos + 4 + 4 + 4) with
    | error e4 =>
      rw [h4] at h
      simp only [except_error_bind] at h
      cases h
      rcases read_path_string_error h4 with h' | h' | h' | h' <;> cases h'
    | ok v4 =>
      obtain ⟨bid, p4⟩ := v4
      rw [h4] at h
      simp only [except_ok_bind] at h
      cases h5 : Location.from_reader data p4 with
      | error e5 =>
        rw [h5] at h
        simp only [except_error_bind] at h
        cases h
        cases location_from_reader_error h5
      | ok v5 =>
        obtain ⟨deps, p5⟩ := v5
        rw [h5] at h
        simp only [except_ok_bind] at h
        cases h6 : Location.from_reader data p5 with
        | error e6 =>
          rw [h6] at h
          simp only [except_error_bind] at h
          cases h
          cases location_from_reader_error h6
        | ok v6 =>
          obtain ⟨rcfg, p6⟩ := v6
          rw [h6] at h
          simp only [except_ok_bind] at h
          cases h7 : read_uint64 data p6 with
          | error e7 =>
            rw [h7] at h
            simp only [except_error_bind] at h
            cases h
            cases read_uint64_error h7
          | ok v7 =>
            obtain ⟨fl, p7⟩ := v7
            rw [h7] at h
            simp at h

/-- Concrete bytes for the C3 witness: `major = 3`, `minor = 0`,
`count = 1` — an invalid triple. -/
def headerSampleBad : List Nat :=
  [3, 0, 0, 0, 0, 0, 0, 0, 1, 0, 0, 0, 9, 9, 9, 9]

/-- Witness for C3: the invalid triple `(3, 0, 1)` fails with the
`FormatError` carrying the parsed values, also on the truncated buffer. -/
theorem header_check_iff_and_locality_witness :
    BundleHeader.from_reader headerSampleBad 0 = .error (.invalidHeader 3 0 1)
    ∧ BundleHeader.from_reader (headerSampleBad.take 12) 0 =
        .error (.invalidHeader 3 0 1) := by
  have h := (header_check_iff_and_locality headerSampleBad 0 3 0 1 4 8 12
    (by decide) (by decide) (by decide)).2.1 (by decide)
  exact ⟨h.1, by simpa using h.2.2⟩

/-- Concrete byte stream for the C9 witness: `offset = 1`, `size = 1`,
`compressed_size = 0`, type byte 2, path `"a"`. -/
def entrySampleSix : List Nat :=
  [1, 0, 0, 0, 0, 0, 0, 0, 1, 0, 0, 0, 0, 0, 0, 0,
   0, 0, 0, 0, 0, 0, 0, 0, 2, 1, 0x61]

/-- Witness for C9: a valid entry with type byte 2 parses to `nativeBinary`,
and type byte 7 decodes to `unknown`. -/
theorem file_type_total_entry_parse_witness :
    BundleFileEntry.from_reader entrySampleSix 0 6 =
      .ok (⟨1, 1, 0, .nativeBinary, [0x61]⟩, 27)
    ∧ byteToFileType 7 = .unknown := by
  constructor
  · exact (file_type_total_entry_parse.2.2 entrySampleSix 0 1 1 0 2 [0x61] 8 16 24 25 27
      (by decide) (by decide) (by decide) (by decide) (by decide)
      (by decide) (by decide) (by decide)).1 (by decide)
  · exact file_type_total_entry_parse.2.1 7 (by decide)

/-- Errors of `Bundle.extract_files`: `decompressionError` is the
`zlib.error` escaping when both decompression attempts fail; `seekError` is
the `ValueError` Python raises on `fh.seek` with a negative offset. -/
inductive ExtractError where
  | decompressionError
  | seekError
deriving DecidableEq, Repr

/-- Python's `fh.read(n)` after `fh.seek(pos)`: a negative `n` reads to the
end of the file, otherwise at most `n` bytes come back. -/
def fileRead (src : List Nat) (pos : Nat) (n : Int) : List Nat :=
  if n < 0 then (src.drop pos).map (fun b => b % 256)
  else ((src.drop pos).take n.toNat).map (fun b => b % 256)

/-- One entry of `Bundle.extract_files`, returning the bytes written to the
destination file.  Decompression is abstracted by two oracles:
`zlibDecompress` for `zlib.decompress(data)` (standard zlib header) and
`rawInflate` for the raw-deflate retry `zlib.decompress(data, -MAX_WBITS)`;
`none` models the oracle raising `zlib.error`.  Python's branch condition
`entry.compressed_size and entry.compressed_size != 0` is truthiness of the
int conjoined with `!= 0`, i.e. exactly `compressed_size ≠ 0`. -/
def extract_entry (zlibDecompress rawInflate : List Nat → Option (List Nat))
    (src : List Nat) (e : BundleFileEntry) : Except ExtractError (List Nat) :=
  if e.offset < 0 then .error .seekError
  else
    let pos := e.offset.toNat
    if e.compressed_size ≠ 0 then
      let compressed := fileRead src pos e.compressed_size
      match zlibDecompress compressed with
      | some d => .ok d
      | none =>
        match rawInflate compressed with
        | some d => .ok d
        | none => .error .decompressionError
    else
      .ok (fileRead src pos e.size)

/-- Counterexample to C2: an entry with the sentinel `compressed_size = -1`
does not copy its `size` bytes verbatim — Python's `entry.compressed_size
and entry.compressed_size != 0` is truthy at `-1`, so the decompression
branch runs (here with oracles that always fail, yielding the escaping
`zlib.error`), instead of the claimed verbatim copy of the byte 72. -/
theorem extract_sentinel_not_verbatim :
    extract_entry (fun _ => none) (fun _ => none) [72]
        ⟨0, 1, -1, FileType.assembly, [0x61]⟩ = .error .decompressionError
    ∧ extract_entry (fun _ => none) (fun _ => none) [72]
        ⟨0, 1, -1, FileType.assembly, [0x61]⟩ ≠ .ok [72] := by
  constructor
  · rfl
  · intro h
    rw [show extract_entry (fun _ => none) (fun _ => none) [72]
        ⟨0, 1, -1, FileType.assembly, [0x61]⟩ = .error .decompressionError from rfl] at h
    cases h

/-- C2 as amended: only for `compressed_size = 0` does `extract_files` copy
verbatim; it then reads exactly `size` raw bytes starting at `offset` and
writes them unchanged, for arbitrary decompression oracles (so no
decompression is attempted).  An in-bounds entry is assumed so that
"exactly `size` bytes" is meaningful. -/
theorem extract_zero_copies_verbatim
    (zlibDecompress rawInflate : List Nat → Option (List Nat))
    (src : List Nat) (e : BundleFileEntry)
    (hc : e.compressed_size = 0) (hoff : 0 ≤ e.offset) (hsz : 0 ≤ e.size)
    (hbound : e.offset.toNat + e.size.toNat ≤ src.length) :
    extract_entry zlibDecompress rawInflate src e =
      .ok (((src.drop e.offset.toNat).take e.size.toNat).map (fun b => b % 256))
    ∧ (((src.drop e.offset.toNat).take e.size.toNat).map (fun b => b % 256)).length
        = e.size.toNat := by
  constructor
  · rw [extract_entry, if_neg (by omega)]
    simp only [hc]
    rw [if_neg (by simp)]
    rw [fileRead, if_neg (by omega)]
  · simp only [List.length_map, List.length_take, List.length_drop]
    omega

/-- Witness for C2 (amended): a zero-`compressed_size` entry of size 2 at
offset 1 in the source `[9, 72, 73]` writes exactly `[72, 73]`. -/
theorem extract_zero_copies_verbatim_witness :
    extract_entry (fun _ => none) (fun _ => none) [9, 72, 73]
      ⟨1, 2, 0, FileType.assembly, [0x61]⟩ = .ok [72, 73] := by
  have h := (extract_zero_copies_verbatim (fun _ => none) (fun _ => none) [9, 72, 73]
    ⟨1, 2, 0, FileType.assembly, [0x61]⟩ (by decide) (by decide) (by decide) (by decide)).1
  simpa using h

/-- C5: for a positive (hence non-sentinel) `compressed_size`, the extractor
reads exactly `compressed_size` bytes from `offset`, first tries the
standard zlib decompression, falls back to raw deflate on failure, fails
with the decompression error only when both fail, and writes the
decompressed bytes on either success. -/
theorem extract_compressed_fallback
    (zlibDecompress rawInflate : List Nat → Option (List Nat))
    (src : List Nat) (e : BundleFileEntry)
    (hc : 0 < e.compressed_size)
    (hoff : 0 ≤ e.offset)
    (hbound : e.offset.toNat + e.compressed_size.toNat ≤ src.length) :
    let compressed := ((src.drop e.offset.toNat).take e.compressed_size.toNat).map
      (fun b => b % 256)
    compressed.length = e.compressed_size.toNat
    ∧ (∀ d, zlibDecompress compressed = some d →
        extract_entry zlibDecompress rawInflate src e = .ok d)
    ∧ (∀ d, zlibDecompress compressed = none → rawInflate compressed = some d →
        extract_entry zlibDecompress rawInflate src e = .ok d)
    ∧ (zlibDecompress compressed = none → rawInflate compressed = none →
        extract_entry zlibDecompress rawInflate src e = .error .decompressionError) := by
  intro compressed
  have hread : fileRead src e.offset.toNat e.compressed_size = compressed := by
    rw [fileRead, if_neg (by omega)]
  have hshape : extract_entry zlibDecompress rawInflate src e =
      match zlibDecompress compressed with
      | some d => .ok d
      | none =>
        match rawInflate compressed with
        | some d => .ok d
        | none => .error .decompressionError := by
    rw [extract_entry, if_neg (by omega), if_pos (by omega), hread]
  refine ⟨?_, ?_, ?_, ?_⟩
  · show (((src.drop e.offset.toNat).take e.compressed_size.toNat).map
        (fun b => b % 256)).length = e.compressed_size.toNat
    simp only [List.length_map, List.length_take, List.length_drop]
    omega
  · intro d hd; rw [hshape, hd]
  · intro d hz hd; rw [hshape, hz, hd]
  · intro hz hd; rw [hshape, hz, hd]

/-- Witness for C5: with an oracle pair that fails the zlib attempt on the
two bytes `[7, 8]` and inflates them to `[1, 2, 3]`, the entry decompresses
via the fallback path. -/
theorem extract_compressed_fallback_witness :
    extract_entry (fun _ => none) (fun c => if c = [7, 8] then some [1, 2, 3] else none)
      [9, 7, 8] ⟨1, 5, 2, FileType.assembly, [0x61]⟩ = .ok [1, 2, 3] := by
  have h := (extract_compressed_fallback (fun _ => none)
    (fun c => if c = [7, 8] then some [1, 2, 3] else none)
    [9, 7, 8] ⟨1, 5, 2, FileType.assembly, [0x61]⟩
    (by decide) (by decide) (by decide)).2.2.1 [1, 2, 3] rfl (by decide)
  simpa using h

/-- Error of `Bundle.find_bundle_offset`: the `struct.error` that
`struct.unpack_from` raises when the buffer is too short at the requested
offset (uncaught in the source, i.e. a crash). -/
inductive FindError where
  | structError
deriving DecidableEq, Repr

/-- The literal marker scanned for by `Bundle.find_bundle_offset`
(`test_guid_bytes` in the source) — the ASCII text
`38cc827-e34f-4453-9df4-1e796e9f1d07`, 35 bytes. -/
def test_guid_bytes : List Nat :=
  [0x33, 0x38, 0x63, 0x63, 0x38, 0x32, 0x37, 0x2d, 0x65, 0x33, 0x34, 0x66,
   0x2d, 0x34, 0x34, 0x35, 0x33, 0x2d, 0x39, 0x64, 0x66, 0x34, 0x2d, 0x31,
   0x65, 0x37, 0x39, 0x36, 0x65, 0x39, 0x66, 0x31, 0x64, 0x30, 0x37]

def findSubAux (pat : List Nat) : List Nat → Nat → Option Nat
  | [], _ => none
  | l@(_ :: rest), i => if pat.isPrefixOf l then some i else findSubAux pat rest (i + 1)

/-- Python's `bytes.find`: lowest index at which `pat` occurs in `data`,
`none` for `-1`.  (`data.find(b"")` is `0`, hence the empty-pattern case.) -/
def findSub (data pat : List Nat) : Option Nat :=
  if pat = [] then some 0 else findSubAux pat data 0

/-- The `guid_bundle_offset` expression of `find_bundle_offset`:
`0x1 + 0x8 + 0x20 + 0x8` for machine type `0x14C`, else
`0x1 + 0x10 + 0x20 + 0x8`. -/
def guid_bundle_offset_for (machineType : Nat) : Nat :=
  if machineType = 0x14C then 0x1 + 0x8 + 0x20 + 0x8 else 0x1 + 0x10 + 0x20 + 0x8

/-- Value of `struct.unpack_from("<..", data, off)` for an unsigned
little-endian field of `width` bytes; callers perform the bounds checks the
way the Python call does. -/
def unpack_le (data : List Nat) (off width : Nat) : Nat :=
  leNat ((data.drop off).take width)

/-- Bundle.find_bundle_offset over the raw executable bytes.  Returns
`.ok none` for Python's `None`, `.ok (some o)` for a located offset, and
`.error .structError` for the uncaught `struct.error` raised by
`struct.unpack_from("<H", data, pe_offset + 4)` when `pe_offset + 6`
exceeds the buffer (the machine-type read happens before the marker
search, so this fires regardless of the marker). -/
def find_bundle_offset (data : List Nat) : Except FindError (Option Int) :=
  if data.length < 0x40 then .ok none
  else
    let pe_offset := unpack_le data 0x3C 4
    if data.length < pe_offset + 4 + 2 then .error .structError
    else
      let pe_machine_type := unpack_le data (pe_offset + 4) 2
      let guid_bundle_offset := guid_bundle_offset_for pe_machine_type
      match findSub data test_guid_bytes with
      | none => .ok none
      | some idx =>
        if (idx : Int) - (guid_bundle_offset : Int) < 0
            ∨ (idx : Int) - (guid_bundle_offset : Int) + 4 > (data.length : Int) then
          .ok none
        else
          .ok (some (toSigned 32 (unpack_le data (idx - guid_bundle_offset) 4)))

theorem find_bundle_offset_found (data : List Nat) (idx : Nat)
    (hlen : 0x40 ≤ data.length)
    (hmach : unpack_le data 0x3C 4 + 6 ≤ data.length)
    (hfind : findSub data test_guid_bytes = some idx)
    (hpre : guid_bundle_offset_for (unpack_le data (unpack_le data 0x3C 4 + 4) 2) ≤ idx)
    (hbound : idx - guid_bundle_offset_for
        (unpack_le data (unpack_le data 0x3C 4 + 4) 2) + 4 ≤ data.length) :
    find_bundle_offset data =
      .ok (some (toSigned 32 (unpack_le data
        (idx - guid_bundle_offset_for
          (unpack_le data (unpack_le data 0x3C 4 + 4) 2)) 4))) := by
  have h1 : ¬ data.length < 0x40 := by omega
  have h2 : ¬ data.length < unpack_le data 0x3C 4 + 4 + 2 := by omega
  have h3 : ¬ ((idx : Int)
        - (guid_bundle_offset_for (unpack_le data (unpack_le data 0x3C 4 + 4) 2) : Int) < 0
      ∨ (idx : Int)
        - (guid_bundle_offset_for (unpack_le data (unpack_le data 0x3C 4 + 4) 2) : Int) + 4
        > (data.length : Int)) := by
    omega
  simp [find_bundle_offset, h1, h2, h3, hfind]
  omega

theorem findSubAux_first {data pat : List Nat} {i : Nat} (hne : pat ≠ [])
    (hp : pat.isPrefixOf (data.drop i) = true)
    (hmin : ∀ k, k < i → pat.isPrefixOf (data.drop k) = false) :
    ∀ (l : List Nat) (j : Nat), l = data.drop j → j ≤ i → findSubAux pat l j = some i := by
  intro l
  induction l with
  | nil =>
    intro j hl hj
    exfalso
    have hdl : data.length ≤ j := by
      have := congrArg List.length hl
      simp only [List.length_nil, List.length_drop] at this
      omega
    have : data.drop i = [] := List.drop_eq_nil_of_le (by omega)
    rw [this] at hp
    cases pat with
    | nil => exact hne rfl
    | cons a as => simp [List.isPrefixOf] at hp
  | cons b rest ih =>
    intro j hl hj
    rcases Nat.lt_or_ge j i with hlt | hge
    · rw [findSubAux, if_neg]
      · apply ih (j + 1) _ (by omega)
        have : data.drop (j + 1) = (data.drop j).tail := (List.tail_drop data j).symm
        rw [this, ← hl]
        rfl
      · rw [hl]
        simp [hmin j hlt]
    · have hji : j = i := by omega
      subst hji
      rw [findSubAux, if_pos]
      rw [hl]
      exact hp

theorem findSub_first {data pat : List Nat} {i : Nat} (hne : pat ≠ [])
    (hp : pat.isPrefixOf (data.drop i) = true)
    (hmin : ∀ k, k < i → pat.isPrefixOf (data.drop k) = false) :
    findSub data pat = some i := by
  rw [findSub, if_neg hne]
  have := findSubAux_first hne hp hmin data 0 (by rw [List.drop_zero]) (Nat.zero_le i)
  exact this

/-- C6 (with the marker's actual 35-byte length): the preamble is 49 bytes
for machine-type code `0x14C` and 57 otherwise; when the machine-type read
is in bounds and the marker is present at `match_index` with
`match_index - preamble_size` in bounds, `find_bundle_offset` returns the
little-endian signed 32-bit integer stored at `match_index - preamble_size`;
when the marker is absent it returns `None`. -/
theorem find_offset_signature_location :
    test_guid_bytes.length = 35
    ∧ (∀ m, guid_bundle_offset_for m = if m = 0x14C then 49 else 57)
    ∧ (∀ data : List Nat, 0x40 ≤ data.length → unpack_le data 0x3C 4 + 6 ≤ data.length →
        (findSub data test_guid_bytes = none → find_bundle_offset data = .ok none)
        ∧ (∀ idx, findSub data test_guid_bytes = some idx →
            guid_bundle_offset_for (unpack_le data (unpack_le data 0x3C 4 + 4) 2) ≤ idx →
            idx - guid_bundle_offset_for (unpack_le data (unpack_le data 0x3C 4 + 4) 2) + 4
              ≤ data.length →
            find_bundle_offset data =
              .ok (some (toSigned 32 (unpack_le data
                (idx - guid_bundle_offset_for
                  (unpack_le data (unpack_le data 0x3C 4 + 4) 2)) 4))))) := by
  refine ⟨by decide, ?_, ?_⟩
  · intro m
    unfold guid_bundle_offset_for
    split <;> rfl
  · intro data hlen hmach
    constructor
    · intro hnone
      have h1 : ¬ data.length < 0x40 := by omega
      have h2 : ¬ data.length < unpack_le data 0x3C 4 + 4 + 2 := by omega
      simp [find_bundle_offset, h1, h2, hnone]
    · intro idx hfind hpre hbound
      exact find_bundle_offset_found data idx hlen hmach hfind hpre hbound

/-- Counterexample to C6 as stated: the scanned marker is not 37 bytes
long. -/
theorem find_offset_marker_not_37 : test_guid_bytes.length ≠ 37 := by decide

/-- Synthetic buffer for the C6 witness: header pointer 0, machine type 0
(preamble 57), the value 42 at index 7 = 64 - 57, and the marker at
index 64. -/
def findSample : List Nat :=
  List.replicate 7 0 ++ [42] ++ List.replicate 56 0 ++ test_guid_bytes

/-- Witness for C6: the synthetic buffer locates offset 42. -/
theorem find_offset_signature_location_witness :
    find_bundle_offset findSample = .ok (some 42) := by
  have h := (find_offset_signature_location.2.2 findSample (by decide) (by decide)).2 64
    (by decide) (by decide) (by decide)
  exact h.trans (by decide)

/-- C7 (amended): `find_bundle_offset` is total except when the machine-type
read at `header_pointer + 4` is out of bounds, where it raises an uncaught
`struct.error` — precisely when the buffer reaches 0x40 bytes but is
shorter than `pe_offset + 6`.  Within bounds it returns `None` for a
too-short buffer, a missing marker, or an out-of-bounds target. -/
theorem find_offset_totality (data : List Nat) :
    (data.length < 0x40 → find_bundle_offset data = .ok none)
    ∧ (find_bundle_offset data = .error .structError ↔
        (0x40 ≤ data.length ∧ data.length < unpack_le data 0x3C 4 + 6))
    ∧ (0x40 ≤ data.length → unpack_le data 0x3C 4 + 6 ≤ data.length →
        findSub data test_guid_bytes = none → find_bundle_offset data = .ok none)
    ∧ (∀ idx, 0x40 ≤ data.length → unpack_le data 0x3C 4 + 6 ≤ data.length →
        findSub data test_guid_bytes = some idx →
        ((idx : Int)
            - (guid_bundle_offset_for (unpack_le data (unpack_le data 0x3C 4 + 4) 2) : Int) < 0
          ∨ (idx : Int)
            - (guid_bundle_offset_for (unpack_le data (unpack_le data 0x3C 4 + 4) 2) : Int) + 4
            > (data.length : Int)) →
        find_bundle_offset data = .ok none) := by
  refine ⟨?_, ⟨?_, ?_⟩, ?_, ?_⟩
  · intro h
    simp [find_bundle_offset, h]
  · intro h
    by_cases hlt : data.length < 0x40
    · simp [find_bundle_offset, hlt] at h
    · by_cases hpe : data.length < unpack_le data 0x3C 4 + 4 + 2
      · exact ⟨by omega, by omega⟩
      · exfalso
        rcases hf : findSub data test_guid_bytes with _ | idx
        · simp [find_bundle_offset, hlt, hpe, hf] at h
        · simp only [find_bundle_offset, hf] at h
          rw [if_neg hlt, if_neg hpe] at h
          split at h <;> cases h
  · rintro ⟨hge, hlt⟩
    have h1 : ¬ data.length < 0x40 := by omega
    have h2 : data.length < unpack_le data 0x3C 4 + 4 + 2 := by omega
    simp [find_bundle_offset, h1, h2]
  · intro hge hmach hnone
    have h1 : ¬ data.length < 0x40 := by omega
    have h2 : ¬ data.length < unpack_le data 0x3C 4 + 4 + 2 := by omega
    simp [find_bundle_offset, h1, h2, hnone]
  · intro idx hge hmach hfind hoob
    have h1 : ¬ data.length < 0x40 := by omega
    have h2 : ¬ data.length < unpack_le data 0x3C 4 + 4 + 2 := by omega
    simp [find_bundle_offset, h1, h2, hfind]
    omega

/-- Buffer of exactly 0x40 bytes whose header-pointer field is
`0xFFFFFFFF`, driving the machine-type read far out of bounds. -/
def crashSample : List Nat := List.replicate 0x3C 0 ++ [0xFF, 0xFF, 0xFF, 0xFF]

/-- Counterexample to C7 as stated: on `crashSample` the function neither
returns an offset nor `None` — the machine-type `struct.unpack_from` raises
an uncaught `struct.error`. -/
theorem find_offset_crash_cex :
    find_bundle_offset crashSample = .error .structError := by decide

/-- Witness for C7 (amended): a short buffer yields `None` and the crash
characterisation is exercised on `crashSample`. -/
theorem find_offset_totality_witness :
    find_bundle_offset [] = .ok none
    ∧ find_bundle_offset crashSample = .error .structError :=
  ⟨(find_offset_totality []).1 (by decide),
   ((find_offset_totality crashSample).2.1).mpr ⟨by decide, by decide⟩⟩

/-- C10 (with the marker's actual 35-byte length): when the marker occurs
at index `i` and again at a later index `j`, and no occurrence precedes
`i`, `find_bundle_offset` computes the manifest offset from the first
occurrence: it returns the `i32` at `i - preamble_size`, regardless of the
later occurrence. -/
theorem find_offset_first_occurrence (data : List Nat) (i j : Nat)
    (hij : i < j)
    (hi : test_guid_bytes.isPrefixOf (data.drop i) = true)
    (hj : test_guid_bytes.isPrefixOf (data.drop j) = true)
    (hfirst : ∀ k, k < i → test_guid_bytes.isPrefixOf (data.drop k) = false)
    (hlen : 0x40 ≤ data.length)
    (hmach : unpack_le data 0x3C 4 + 6 ≤ data.length)
    (hpre : guid_bundle_offset_for (unpack_le data (unpack_le data 0x3C 4 + 4) 2) ≤ i)
    (hbound : i - guid_bundle_offset_for
        (unpack_le data (unpack_le data 0x3C 4 + 4) 2) + 4 ≤ data.length) :
    find_bundle_offset data =
      .ok (some (toSigned 32 (unpack_le data
        (i - guid_bundle_offset_for
          (unpack_le data (unpack_le data 0x3C 4 + 4) 2)) 4))) := by
  have hfind : findSub data test_guid_bytes = some i :=
    findSub_first (by decide) hi hfirst
  exact find_bundle_offset_found data i hlen hmach hfind hpre hbound

/-- Counterexample to C10 as stated: the marker sequence has 35 bytes, so
there is no 37-byte marker to occur. -/
theorem find_offset_first_occurrence_marker_cex :
    test_guid_bytes.length = 35 ∧ ¬ test_guid_bytes.length = 37 := by decide

/-- Buffer with the marker at both index 64 and index 99. -/
def findSampleTwice : List Nat :=
  List.replicate 7 0 ++ [42] ++ List.replicate 56 0 ++ test_guid_bytes ++ test_guid_bytes

/-- Witness for C10: with two marker occurrences the offset comes from the
first one. -/
theorem find_offset_first_occurrence_witness :
    find_bundle_offset findSampleTwice = .ok (some 42) := by
  have h := find_offset_first_occurrence findSampleTwice 64 99 (by decide) (by decide)
    (by decide) (by decide) (by decide) (by decide) (by decide) (by decide)
  exact h.trans (by decide)

theorem entry_from_reader_ok_valid {data : List Nat} {pos major : Nat}
    {e : BundleFileEntry} {p' : Nat}
    (h : BundleFileEntry.from_reader data pos major = .ok (e, p')) : e.is_valid := by
  cases h1 : read_int64 data pos with
  | error e1 => simp [BundleFileEntry.from_reader, h1] at h
  | ok v1 =>
    obtain ⟨off, p1⟩ := v1
    cases h2 : read_int64 data p1 with
    | error e2 => simp [BundleFileEntry.from_reader, h1, h2] at h
    | ok v2 =>
      obtain ⟨sz, p2⟩ := v2
      by_cases hmaj : major = 6
      · cases hc : read_int64 data p2 with
        | error e3 => simp [BundleFileEntry.from_reader, h1, h2, hmaj, hc] at h
        | ok v3 =>
          obtain ⟨cmp, p3⟩ := v3
          cases h3 : read_byte data p3 with
          | error e4 => simp [BundleFileEntry.from_reader, h1, h2, hmaj, hc, h3] at h
          | ok v4 =>
            obtain ⟨t, p4⟩ := v4
            cases h4 : read_path_string data p4 with
            | error e5 => simp [BundleFileEntry.from_reader, h1, h2, hmaj, hc, h3, h4] at h
            | ok v5 =>
              obtain ⟨pth, p5⟩ := v5
              simp only [BundleFileEntry.from_reader, h1, h2, hmaj, hc, h3, h4,
                except_ok_bind, except_pure_eq, except_throw_eq, if_true] at h
              split at h
              · rename_i hval
                cases h
                exact hval
              · cases h
      · cases h3 : read_byte data p2 with
        | error e4 => simp [BundleFileEntry.from_reader, h1, h2, hmaj, h3] at h
        | ok v4 =>
          obtain ⟨t, p4⟩ := v4
          cases h4 : read_path_string data p4 with
          | error e5 => simp [BundleFileEntry.from_reader, h1, h2, hmaj, h3, h4] at h
          | ok v5 =>
            obtain ⟨pth, p5⟩ := v5
            simp only [BundleFileEntry.from_reader, h1, h2, hmaj, h3, h4,
              except_ok_bind, except_pure_eq, except_throw_eq, if_false] at h
            split at h
            · rename_i hval
              cases h
              exact hval
            · cases h

/-- Entry loop of `Bundle.read_bundle`: parse `n` entries starting at `pos`,
appending each parsed entry to the accumulator the way Python appends to
`self.embedded_files`; a parse error stops the loop with `false` (the run is
reported failed), keeping the entries fully parsed so far. -/
def readEntries (data : List Nat) (major : Nat) :
    Nat → Nat → List BundleFileEntry → Bool × List BundleFileEntry × Nat
  | 0, pos, acc => (true, acc, pos)
  | n + 1, pos, acc =>
    match BundleFileEntry.from_reader data pos major with
    | .error _ => (false, acc, pos)
    | .ok (e, pos') => readEntries data major n pos' (acc ++ [e])

/-- Bundle.read_bundle: parse the header at `bundle_offset`, then
`embedded_files_count` entries.  The result is the triple (returned success
flag, `self.header`, `self.embedded_files`) after the call. -/
def read_bundle (data : List Nat) (bundle_offset : Nat) :
    Bool × Option BundleHeader × List BundleFileEntry :=
  match BundleHeader.from_reader data bundle_offset with
  | .error _ => (false, none, [])
  | .ok (hdr, pos) =>
    let r := readEntries data hdr.major_version hdr.embedded_files_count.toNat pos []
    (r.1, some hdr, r.2.1)

theorem readEntries_all_valid (data : List Nat) (major : Nat) :
    ∀ (n pos : Nat) (acc : List BundleFileEntry),
      (∀ e ∈ acc, e.is_valid) →
      ∀ e ∈ (readEntries data major n pos acc).2.1, e.is_valid := by
  intro n
  induction n with
  | zero =>
    intro pos acc hacc e he
    exact hacc e (by simpa [readEntries] using he)
  | succ n ih =>
    intro pos acc hacc e he
    cases hp : BundleFileEntry.from_reader data pos major with
    | error er =>
      simp only [readEntries, hp] at he
      exact hacc e (by simpa using he)
    | ok v =>
      obtain ⟨e', pos'⟩ := v
      simp only [readEntries, hp] at he
      refine ih pos' (acc ++ [e']) ?_ e he
      intro x hx
      rcases List.mem_append.mp hx with hx | hx
      · exact hacc x hx
      · rw [List.mem_singleton.mp hx]
        exact entry_from_reader_ok_valid hp

/-- C8: a parse error in the header aborts the run with no header or entry
state at all; a parse error in the entry loop reports the run as failed;
and in every case the retained embedded-files list holds only fully parsed
entries that passed the validity check — no partially parsed entry is ever
available to extraction. -/
theorem read_bundle_no_partial_state (data : List Nat) (off : Nat) :
    (∀ e ∈ (read_bundle data off).2.2, e.is_valid)
    ∧ (∀ er, BundleHeader.from_reader data off = .error er →
        read_bundle data off = (false, none, []))
    ∧ (∀ hdr pos, BundleHeader.from_reader data off = .ok (hdr, pos) →
        (readEntries data hdr.major_version hdr.embedded_files_count.toNat pos []).1 = false →
        (read_bundle data off).1 = false) := by
  refine ⟨?_, ?_, ?_⟩
  · intro e he
    cases hh : BundleHeader.from_reader data off with
    | error er =>
      simp [read_bundle, hh] at he
    | ok v =>
      obtain ⟨hdr, pos⟩ := v
      simp only [read_bundle, hh] at he
      exact readEntries_all_valid data hdr.major_version
        hdr.embedded_files_count.toNat pos [] (by simp) e he
  · intro er h
    simp [read_bundle, h]
  · intro hdr pos h hf
    simp [read_bundle, h, hf]

/-- Synthetic well-formed bundle for the C8 witness: header
`major = 6, minor = 0, count = 1`, `bundle_id = "x"`, zero locations and
flags, one entry `{offset = 100, size = 5, compressed_size = 0,
type = Assembly, path = "a"}`. -/
def goodBundle : List Nat :=
  [6, 0, 0, 0, 0, 0, 0, 0, 1, 0, 0, 0, 1, 0x78]
  ++ List.replicate 40 0
  ++ [100, 0, 0, 0, 0, 0, 0, 0, 5, 0, 0, 0, 0, 0, 0, 0,
      0, 0, 0, 0, 0, 0, 0, 0, 1, 1, 0x61]

/-- Witness for C8: the entry retained by a successful run is valid, and a
header failure (empty input) leaves the failed run with no state. -/
theorem read_bundle_no_partial_state_witness :
    BundleFileEntry.is_valid ⟨100, 5, 0, .assembly, [0x61]⟩
    ∧ read_bundle [] 0 = (false, none, []) := by
  constructor
  · exact (read_bundle_no_partial_state goodBundle 0).1
      ⟨100, 5, 0, .assembly, [0x61]⟩ (by decide)
  · exact (read_bundle_no_partial_state [] 0).2.1 .endOfStream (by decide)
